import Mathlib

/-!
Shallow embedding of the Lake Shore XIP python driver core
(`lakeshore/xip_instrument.py` and `lakeshore/teslameter.py`).

Strings are modelled by Lean `String`; the handful of python string
operations used by the driver (`rstrip`, `split`, `re.split` over a
single-character alternation, substring membership, `str.replace`) are
implemented structurally over `String.data` so every definition is
executable and decidable on concrete inputs.  Machine floats of the
python source are modelled by exact rationals `ℚ`.
-/

attribute [local semireducible] Rat.mul Rat.inv Rat.add Rat.sub Rat.ofScientific

deriving instance DecidableEq for Except

/-- Characters stripped by python `str.rstrip()` with no argument. -/
def isPySpace (c : Char) : Bool :=
  c = ' ' || c = '\t' || c = '\n' || c = '\r' || c = Char.ofNat 11 || c = Char.ofNat 12

/-- Drops trailing characters satisfying `p` (python `rstrip`). -/
def rstripList (p : Char → Bool) (s : List Char) : List Char :=
  (s.reverse.dropWhile p).reverse

/-- Python `s.rstrip()`: remove all trailing whitespace. -/
def pyRstrip (s : String) : String :=
  String.mk (rstripList isPySpace s.data)

/-- Python `s.rstrip(sep)` for the single character `sep`. -/
def pyRstripChar (sep : Char) (s : String) : String :=
  String.mk (rstripList (fun c => c = sep) s.data)

/-- Does `pat` occur as a contiguous sublist of `s`?  Python `pat in s`. -/
def containsSub (pat : List Char) : List Char → Bool
  | [] => pat.isPrefixOf []
  | c :: cs => pat.isPrefixOf (c :: cs) || containsSub pat cs

/-- Python substring membership `pat in s`. -/
def strContains (s pat : String) : Bool :=
  containsSub pat.data s.data

/-- Fuel-driven removal of every leftmost non-overlapping occurrence of
`pat` (python `s.replace(pat, "")` for a non-empty `pat`).  One unit of
fuel is spent per character position, so `s.length` units suffice. -/
def removeSubAux (pat : List Char) : Nat → List Char → List Char
  | 0, s => s
  | _ + 1, [] => []
  | fuel + 1, c :: cs =>
    if pat.isPrefixOf (c :: cs) then
      removeSubAux pat fuel (List.drop (pat.length - 1) cs)
    else
      c :: removeSubAux pat fuel cs

/-- Python `s.replace(pat, "")` for a non-empty pattern. -/
def strRemoveSub (pat s : String) : String :=
  String.mk (removeSubAux pat.data s.data.length s.data)

/-- Python `s.split(sep)` for a single-character separator. -/
def pySplitChar (sep : Char) (s : String) : List String :=
  (s.data.splitOn sep).map String.mk

/-- The trailing error-buffer interrogation clause appended to checked
instructions (`";:SYSTem:ERRor:ALL?"` in the source). -/
def errClause : String := ";:SYSTem:ERRor:ALL?"

/-- The no-error marker segment that a clean error-buffer read appends to
a response; `query` removes it with `str.replace`. -/
def noErrMarker : String := ";0,\"No error\""

/-- The no-error marker text tested by `_error_check`
(`"No error" not in response`). -/
def noErrText : String := "No error"

/-- Python `response.split(';')` followed by indexing the final element,
as done by `_error_check` to isolate the instrument-reported error. -/
def lastSegment (response : String) : String :=
  (pySplitChar ';' response).getLastD ""

/-- Typed failure raised by `_error_check`.  The python source raises a
single exception class (`XIPInstrumentConnectionException`) for both
cases; they are distinguished by the message, which `errorMessage`
reconstructs exactly. -/
inductive XIPError where
  /-- Empty response: communication timed out. -/
  | timeout : XIPError
  /-- Instrument error buffer reported an error; carries the final
  segment of the response (`returned_errors` in the source). -/
  | scpi (returnedErrors : String) : XIPError
deriving DecidableEq

/-- The exact exception message the python source attaches to each
failure. -/
def errorMessage : XIPError → String
  | XIPError.timeout => "Communication timed out"
  | XIPError.scpi returnedErrors => "SCPI command error: " ++ returnedErrors

/-- Embedding of `XIPInstrument._error_check`: empty response raises a
timeout; a response not containing `"No error"` raises an SCPI error
carrying the final `;`-delimited segment; otherwise success. -/
def error_check (response : String) : Except XIPError Unit :=
  if response = "" then
    Except.error XIPError.timeout
  else if strContains response noErrText = false then
    Except.error (XIPError.scpi (lastSegment response))
  else
    Except.ok ()

/-- Embedding of `XIPInstrument.query`, value part: given the raw
transport response, produce the returned string or the raised error.
Mirrors lines 52-60 of the source: error check, `str.replace` of the
no-error marker, final `rstrip`. -/
def query_result (check_errors : Bool) (response : String) : Except XIPError String :=
  if check_errors then
    match error_check response with
    | Except.error e => Except.error e
    | Except.ok _ => Except.ok (pyRstrip (strRemoveSub noErrMarker response))
  else
    Except.ok (pyRstrip response)

/-- Embedding of `XIPInstrument.command`, value part: with error
checking the source appends the clause and delegates to `query` (which
itself error-checks by default), then runs `_error_check` again on the
string `query` returned. -/
def command_result (check_errors : Bool) (response : String) : Except XIPError Unit :=
  if check_errors then
    match query_result true response with
    | Except.error e => Except.error e
    | Except.ok r => error_check r
  else
    Except.ok ()

/-- One transport interaction recorded at the wire level. -/
inductive Event where
  | write (s : String) : Event
  | read (s : String) : Event
deriving DecidableEq

/-- Embedding of `XIPInstrument._usb_command`: one write of the
instruction plus a line feed. -/
def usb_command_events (c : String) : List Event :=
  [Event.write (c ++ "\n")]

/-- Embedding of `XIPInstrument._usb_query`: the write of
`_usb_command` followed by exactly one `readline`. -/
def usb_query_events (q response : String) : List Event :=
  usb_command_events q ++ [Event.read response]

/-- Wire instruction built by `XIPInstrument.query`: the clause is
appended whenever `check_errors` is true. -/
def query_sent (check_errors : Bool) (q : String) : String :=
  if check_errors then q ++ errClause else q

/-- Transport events of one `XIPInstrument.query` call. -/
def query_events (check_errors : Bool) (q response : String) : List Event :=
  usb_query_events (query_sent check_errors q) response

/-- Transport events of one `XIPInstrument.command` call: with error
checking the source appends the clause itself and then calls `query`
with its default `check_errors=True`. -/
def command_events (check_errors : Bool) (c response : String) : List Event :=
  if check_errors then query_events true (c ++ errClause) response
  else usb_command_events c

/-- Event filter used to count transport writes. -/
def isWrite : Event → Bool
  | Event.write _ => true
  | Event.read _ => false

/-- Event filter used to count transport reads. -/
def isRead : Event → Bool
  | Event.write _ => false
  | Event.read _ => true

/-- The strings written to the transport, in order. -/
def writtenStrings (l : List Event) : List String :=
  l.filterMap fun e =>
    match e with
    | Event.write s => some s
    | Event.read _ => none

/-- Number of occurrences (at every starting position) of `pat` inside
`s`; used to count how many times the interrogation clause appears on
the wire. -/
def countSub (pat : List Char) : List Char → Nat
  | [] => if pat.isPrefixOf [] then 1 else 0
  | c :: cs => (if pat.isPrefixOf (c :: cs) then 1 else 0) + countSub pat cs

/-- The parsed sample record of `teslameter.py` (`DataPoint` namedtuple):
elapsed time plus twelve string fields.  Elapsed time is modelled by an
exact rational. -/
structure DataPoint where
  time_elapsed : ℚ
  date : String
  hour : String
  minute : String
  second : String
  time_zone_hour : String
  time_zone_minute : String
  magnitude : String
  x : String
  y : String
  z : String
  field_control_set_point : String
  input_state : String
deriving DecidableEq

/-- Python `re.split(r'T|:|\+|,', point)`: since every alternative of
the pattern is one literal character, this splits at each occurrence of
any of the four delimiter characters, keeping empty pieces. -/
def splitPoint (point : String) : List String :=
  (List.splitOnP (fun c => c == 'T' || c == ':' || c == '+' || c == ',') point.data).map String.mk

/-- Record-shape normalization of `get_buffered_data` (lines 60-64): a
record whose split has exactly 11 fields has its last element popped,
a `"0"` appended, and the popped element re-appended. -/
def normalizePoint (parsed : List String) : List String :=
  if parsed.length = 11 then
    parsed.dropLast ++ ["0", parsed.getLastD ""]
  else
    parsed

/-- Python `DataPoint(elapsed_time, *parsed_point)`: succeeds only when
the argument list has exactly twelve elements, otherwise the constructor
raises a `TypeError`, modelled by `none`. -/
def mkDataPoint (t : ℚ) (fields : List String) : Option DataPoint :=
  match fields with
  | [date, hour, minute, second, tzh, tzm, magnitude, x, y, z, fcsp, inp] =>
    some (DataPoint.mk t date hour minute second tzh tzm magnitude x y z fcsp inp)
  | _ => none

/-- Python `response.rstrip(';').split(';')` (line 54): the raw records
of one batch response. -/
def splitPoints (response : String) : List String :=
  pySplitChar ';' (pyRstripChar ';' response)

/-- Processing of one raw record inside the poll loop (lines 56-80):
split on the delimiters, normalize an 11-field shape, stamp the
elapsed time from the accumulated count, construct the `DataPoint`,
append it, and evaluate the termination test.  `none` models the
`TypeError` raised by a wrong-arity constructor call; the `Bool`
records whether the loop returns after this record. -/
def stepRecord (rate duration : ℚ) (acc : List DataPoint) (point : String) :
    Option (List DataPoint × Bool) :=
  let parsed := normalizePoint (splitPoint point)
  let elapsed := ((acc.length : ℚ) + 1) * rate / 1000
  match mkDataPoint elapsed parsed with
  | none => none
  | some pt =>
    let acc2 := acc ++ [pt]
    some (acc2, if duration * 1000 ≤ (acc2.length : ℚ) * rate then true else false)

/-- The `for point in data_points` loop, with the early `return` taken
as soon as the termination test passes. -/
def runPoints (rate duration : ℚ) (acc : List DataPoint) :
    List String → Option (List DataPoint × Bool)
  | [] => some (acc, false)
  | p :: ps =>
    match stepRecord rate duration acc p with
    | none => none
    | some (acc2, true) => some (acc2, true)
    | some (acc2, false) => runPoints rate duration acc2 ps

/-- Processing of one poll response (lines 49-83): a response without
the record separator is ignored, otherwise its records are processed in
order. -/
def stepResponse (rate duration : ℚ) (acc : List DataPoint) (response : String) :
    Option (List DataPoint × Bool) :=
  if strContains response ";" then
    runPoints rate duration acc (splitPoints response)
  else
    some (acc, false)

/-- The `while True` poll loop, driven by the stream of transport
responses (`stream k` answers the k-th query of the session) starting
at read index `k`; `fuel` bounds the number of iterations modelled. -/
def runStream (rate duration : ℚ) (stream : Nat → String) (acc : List DataPoint) :
    Nat → Nat → Option (List DataPoint × Bool)
  | _, 0 => some (acc, false)
  | k, fuel + 1 =>
    match stepResponse rate duration acc (stream k) with
    | none => none
    | some (acc2, true) => some (acc2, true)
    | some (acc2, false) => runStream rate duration stream acc2 (k + 1) fuel

/-- Round-half-to-even on rationals, the rounding python `round` uses. -/
def roundHalfEven (q : ℚ) : ℤ :=
  let f := Rat.floor q
  let r := q - (f : ℚ)
  if r < 1 / 2 then f
  else if 1 / 2 < r then f + 1
  else if f % 2 = 0 then f else f + 1

/-- Python `round(x, 2)` (line 28): round to centiseconds. -/
def round2 (q : ℚ) : ℚ :=
  (roundHalfEven (q * 100) : ℚ) / 100

/-- Embedding of `Teslameter.get_buffered_data` after the sampling rate
is known: the requested duration is rounded to two decimals, the first
transport read (`stream 0`) is consumed by the buffer-clearing flush
query of line 37 and its content is discarded, and the poll loop then
consumes `stream 1`, `stream 2`, ... .  The result is `none` when a
record has the wrong arity (python `TypeError`), and otherwise the
accumulated samples together with `true` when the source returned
normally within `fuel` poll iterations. -/
def get_buffered_data (rate duration : ℚ) (stream : Nat → String) (fuel : Nat) :
    Option (List DataPoint × Bool) :=
  runStream rate (round2 duration) stream [] 1 fuel

/-- Python `str` of a string: `repr` quoting.  Faithful for strings that
contain no control characters and no backslash: a single-quoted form
unless the string contains a single quote and no double quote. -/
def pyReprStr (s : String) : String :=
  if s.data.contains (Char.ofNat 39) && !s.data.contains (Char.ofNat 34) then
    String.mk (Char.ofNat 34 :: s.data ++ [Char.ofNat 34])
  else
    String.mk (Char.ofNat 39 :: s.data ++ [Char.ofNat 39])

/-- Separator-join used to model python `str` of a list (elements are
rendered with `pyReprStr` and joined by a comma and a space). -/
def joinSep (sep : String) : List String → String
  | [] => ""
  | [s] => s
  | s :: s2 :: rest => s ++ sep ++ joinSep sep (s2 :: rest)

/-- Python `str(parsed_point)` for a list of strings. -/
def pyStrList (l : List String) : String :=
  "[" ++ joinSep ", " (l.map pyReprStr) ++ "]"

/-- Python `s.replace(c, "")` for a single character: removal of every
occurrence. -/
def removeChar (c : Char) (s : String) : String :=
  String.mk (s.data.filter (fun ch => ch ≠ c))

/-- The chained `.replace("'", "").replace("[", "").replace("]", "")`
of line 76. -/
def stripPyDecor (s : String) : String :=
  removeChar ']' (removeChar '[' (removeChar (Char.ofNat 39) s))

/-- The csv row written for one sample (lines 75-77):
`str(elapsed_time)` (passed here already rendered as `timeStr`), a
comma, the python list rendering of the normalized fields with quotes
and brackets removed, and a line feed. -/
def csvRow (timeStr : String) (fields : List String) : String :=
  timeStr ++ "," ++ stripPyDecor (pyStrList fields) ++ "\n"

/-- The batch response of the worked end-to-end example, supplied by the
transport on every poll. -/
def exampleStream : Nat → String :=
  fun _ => "T10:30:15+05:30,12.5,1,2,3,0,1;"

/-- Specification of the synthetic clock: the sample stored at position
`n` (0-based) of the accumulated list carries elapsed time
`(n + 1) * rate / 1000`. -/
def elapsedSpec (rate : ℚ) (acc : List DataPoint) : Prop :=
  ∀ (n : Nat) (pt : DataPoint), acc[n]? = some pt →
    pt.time_elapsed = ((n : ℚ) + 1) * rate / 1000

/-- The sample decoded from the worked example record, with a given
elapsed time. -/
def examplePoint (t : ℚ) : DataPoint :=
  DataPoint.mk t "" "10" "30" "15" "05" "30" "12.5" "1" "2" "3" "0" "1"

/-- The three samples of the worked example session (interval 10 ms,
duration 0.03 s). -/
def examplePoints : List DataPoint :=
  [examplePoint (1 / 100), examplePoint (1 / 50), examplePoint (3 / 100)]

/-- Character-wise lowercase rendering of a string (used only to compare
exception messages up to letter case). -/
def lowerStr (s : String) : String :=
  String.mk (s.data.map Char.toLower)

/-! ## Protocol-engine claims -/

/-- C1: an empty raw response makes the Error Check algorithm fail with
the Connection-Timeout error whose message is the communication-timed-out
text, and never with a Protocol (SCPI) error. -/
theorem c1_empty_response_timeout :
    error_check "" = Except.error XIPError.timeout ∧
    errorMessage XIPError.timeout = "Communication timed out" ∧
    lowerStr (errorMessage XIPError.timeout) = "communication timed out" ∧
    ∀ e, error_check "" ≠ Except.error (XIPError.scpi e) := by
  refine ⟨by decide, rfl, by decide, ?_⟩
  intro e h
  simp [error_check] at h

/-- C2: a non-empty raw response that does not contain the no-error
marker text makes the Error Check algorithm fail with a Protocol (SCPI)
error carrying exactly the final semicolon-delimited segment of the raw
response; the raised exception message prefixes that segment with the
fixed SCPI-command-error text. -/
theorem c2_scpi_error_carries_last_segment (response : String)
    (hne : response ≠ "") (hno : strContains response noErrText = false) :
    error_check response = Except.error (XIPError.scpi (lastSegment response)) ∧
    errorMessage (XIPError.scpi (lastSegment response)) =
      "SCPI command error: " ++ lastSegment response := by
  refine ⟨?_, rfl⟩
  simp [error_check, hne, hno]

/-- Witness for C2 at a concrete errored response. -/
theorem c2_scpi_error_carries_last_segment_witness :
    error_check "1.5;-113,\"Undefined header\"" =
      Except.error (XIPError.scpi (lastSegment "1.5;-113,\"Undefined header\"")) ∧
    errorMessage (XIPError.scpi (lastSegment "1.5;-113,\"Undefined header\"")) =
      "SCPI command error: " ++ lastSegment "1.5;-113,\"Undefined header\"" :=
  c2_scpi_error_carries_last_segment "1.5;-113,\"Undefined header\"" (by decide) (by decide)

/-- C3 counterexample: `command` with error checking does not append the
interrogation clause exactly once.  For the instruction
`"UNIT:FIELD TESLA"` the single wire write contains the clause at two
distinct positions, because `command` appends it and then calls `query`
whose default appends it again. -/
theorem c3_counterexample :
    writtenStrings (command_events true "UNIT:FIELD TESLA" "0,\"No error\"") =
      ["UNIT:FIELD TESLA;:SYSTem:ERRor:ALL?;:SYSTem:ERRor:ALL?\n"] ∧
    countSub errClause.data "UNIT:FIELD TESLA;:SYSTem:ERRor:ALL?;:SYSTem:ERRor:ALL?\n".data = 2 ∧
    (2 : Nat) ≠ 1 := by
  refine ⟨by decide, by decide, by decide⟩

/-- C3 amended: `command(instruction, checkErrors=true)` appends the
error-buffer interrogation clause twice (once itself and once through
`query`'s default error checking), performs exactly one transport write
and exactly one transport read, and runs the Error Check algorithm
twice: on the raw response inside `query`, and again on the string
`query` returns (the response with the no-error marker segments removed
and trailing whitespace stripped). -/
theorem c3_amended (c response : String) :
    command_events true c response =
      [Event.write (c ++ errClause ++ errClause ++ "\n"), Event.read response] ∧
    ((command_events true c response).filter isWrite).length = 1 ∧
    ((command_events true c response).filter isRead).length = 1 ∧
    command_result true response =
      (match error_check response with
       | Except.error e => Except.error e
       | Except.ok _ => error_check (pyRstrip (strRemoveSub noErrMarker response))) := by
  refine ⟨rfl, rfl, rfl, ?_⟩
  cases h : error_check response with
  | error e => simp [command_result, query_result, h]
  | ok u => simp [command_result, query_result, h]

/-- C4 counterexample: for a raw response in which the no-error marker
segment also occurs inside the payload, the checked `query` removes
every occurrence, not only the trailing one, so the payload is altered:
the claim would require the return value to keep the non-trailing
occurrence. -/
theorem c4_counterexample :
    query_result true "1.5;0,\"No error\";0,\"No error\"\n" = Except.ok "1.5" ∧
    ("1.5" : String) ≠ "1.5;0,\"No error\"" := by
  refine ⟨by decide, by decide⟩

/-- C4 amended: on a raw response that passes Error Check, the checked
`query` returns the response with every occurrence of the no-error
marker segment removed (python `str.replace`) and all trailing
whitespace stripped; when the marker occurs only as the trailing
segment this leaves exactly the untouched payload. -/
theorem c4_amended (response : String) (h : error_check response = Except.ok ()) :
    query_result true response = Except.ok (pyRstrip (strRemoveSub noErrMarker response)) := by
  simp [query_result, h]

/-- Witness for C4 amended: a clean single-payload response keeps its
payload unchanged. -/
theorem c4_amended_witness :
    query_result true "12.5;0,\"No error\"\n" = Except.ok "12.5" := by
  have h := c4_amended "12.5;0,\"No error\"\n" (by decide)
  rw [h]
  decide

/-! ## Record-shape and rendering claims -/

/-- C5 counterexample: a raw record whose delimiter-split yields exactly
13 sub-fields does not pass through unchanged; the sample constructor
receives 14 arguments and fails (python `TypeError`), so no sample is
produced at all and the record processing step errors out. -/
theorem c5_counterexample :
    (splitPoint "T10:30:15+05:30,12.5,1,2,3,0,1,9").length = 13 ∧
    normalizePoint (splitPoint "T10:30:15+05:30,12.5,1,2,3,0,1,9") =
      splitPoint "T10:30:15+05:30,12.5,1,2,3,0,1,9" ∧
    mkDataPoint (1 / 100) (normalizePoint (splitPoint "T10:30:15+05:30,12.5,1,2,3,0,1,9")) =
      none ∧
    stepRecord 10 (3 / 100) [] "T10:30:15+05:30,12.5,1,2,3,0,1,9" = none := by
  refine ⟨by decide, by decide, by decide, by decide⟩

/-- C5 amended: a record whose split yields exactly 11 sub-fields is
expanded so the sample has 13 fields with the 12th field
(field-control-set-point) forced to the zero placeholder and the
original 11th sub-field moved to position 13 (input-state); a record
whose split yields exactly 12 sub-fields passes through unchanged into
the 13-field sample; a record whose split yields 13 sub-fields fails
sample construction (constructor arity error). -/
theorem c5_amended (t : ℚ)
    (f1 f2 f3 f4 f5 f6 f7 f8 f9 f10 f11 f12 f13 : String) :
    normalizePoint [f1, f2, f3, f4, f5, f6, f7, f8, f9, f10, f11] =
      [f1, f2, f3, f4, f5, f6, f7, f8, f9, f10, "0", f11] ∧
    mkDataPoint t (normalizePoint [f1, f2, f3, f4, f5, f6, f7, f8, f9, f10, f11]) =
      some (DataPoint.mk t f1 f2 f3 f4 f5 f6 f7 f8 f9 f10 "0" f11) ∧
    normalizePoint [f1, f2, f3, f4, f5, f6, f7, f8, f9, f10, f11, f12] =
      [f1, f2, f3, f4, f5, f6, f7, f8, f9, f10, f11, f12] ∧
    mkDataPoint t (normalizePoint [f1, f2, f3, f4, f5, f6, f7, f8, f9, f10, f11, f12]) =
      some (DataPoint.mk t f1 f2 f3 f4 f5 f6 f7 f8 f9 f10 f11 f12) ∧
    mkDataPoint t (normalizePoint [f1, f2, f3, f4, f5, f6, f7, f8, f9, f10, f11, f12, f13]) =
      none := by
  exact ⟨rfl, rfl, rfl, rfl, rfl⟩

/-- C9 counterexample: parsing the example batch response as the first
sample of a 10 ms session yields a sample whose date field is the empty
string (the leading `T` delimiter produces an empty first sub-field),
not the claimed date of 10. -/
theorem c9_counterexample :
    (get_buffered_data 10 (0.03 : ℚ) exampleStream 10).map
        (fun r => r.1[0]?.map DataPoint.date) = some (some "") ∧
    ("" : String) ≠ "10" := by
  refine ⟨by decide, by decide⟩

/-- C9 amended: parsing the single batch response
`"T10:30:15+05:30,12.5,1,2,3,0,1;"` as the first sample of a session
with interval 10 ms yields the sample with elapsed time 1/100 and
fields date empty, hour 10, minute 30, second 15, time-zone-hour 05,
time-zone-minute 30, magnitude 12.5, x 1, y 2, z 3,
field-control-set-point 0, input-state 1: the leading delimiter makes
the first sub-field empty and shifts the date/time labels by one
position relative to the claim. -/
theorem c9_amended :
    (get_buffered_data 10 (0.03 : ℚ) exampleStream 10).map (fun r => r.1[0]?) =
      some (some (DataPoint.mk (1 / 100) "" "10" "30" "15" "05" "30" "12.5" "1" "2" "3" "0" "1")) := by
  decide

/-- C10 counterexample: the row written for a sample is not plainly
comma-joined; the python list rendering leaves a space after every
comma that separates two normalized fields. -/
theorem c10_counterexample :
    csvRow "0.01" ["", "10", "30", "15", "05", "30", "12.5", "1", "2", "3", "0", "1"] =
      "0.01,, 10, 30, 15, 05, 30, 12.5, 1, 2, 3, 0, 1\n" ∧
    "0.01,, 10, 30, 15, 05, 30, 12.5, 1, 2, 3, 0, 1\n" ≠
      "0.01" ++ "," ++
        joinSep "," ["", "10", "30", "15", "05", "30", "12.5", "1", "2", "3", "0", "1"] ++ "\n" := by
  refine ⟨by decide, by decide⟩

/-- Helper: `String` append is `List` append on the underlying data. -/
theorem strMk_append (a b : List Char) : String.mk (a ++ b) = String.mk a ++ String.mk b := rfl

/-- Helper: data of an appended string. -/
theorem str_append_data (a b : String) : (a ++ b).data = a.data ++ b.data := rfl

/-- Helper: the empty string is a right identity of append. -/
theorem str_append_empty (s : String) : s ++ "" = s := by
  show String.mk (s.data ++ []) = s
  rw [List.append_nil]

/-- Helper: single-character removal distributes over append. -/
theorem removeChar_append (c : Char) (a b : String) :
    removeChar c (a ++ b) = removeChar c a ++ removeChar c b := by
  simp [removeChar, str_append_data, List.filter_append, strMk_append]

/-- Helper: the bracket-and-quote stripping distributes over append. -/
theorem stripPyDecor_append (a b : String) :
    stripPyDecor (a ++ b) = stripPyDecor a ++ stripPyDecor b := by
  simp [stripPyDecor, removeChar_append]

/-- Helper: removing a character that does not occur leaves the string
unchanged. -/
theorem removeChar_clean (c : Char) (s : String) (h : ∀ ch ∈ s.data, ch ≠ c) :
    removeChar c s = s := by
  show String.mk (s.data.filter _) = s
  rw [List.filter_eq_self.mpr]
  intro a ha
  simpa using h a ha

/-- Helper: stripping leaves a string free of quotes and brackets
unchanged. -/
theorem stripPyDecor_clean (s : String)
    (h : ∀ ch ∈ s.data, ch ≠ Char.ofNat 39 ∧ ch ≠ '[' ∧ ch ≠ ']') :
    stripPyDecor s = s := by
  unfold stripPyDecor
  rw [removeChar_clean _ _ (fun ch hch => (h ch hch).1)]
  rw [removeChar_clean _ _ (fun ch hch => (h ch hch).2.1)]
  exact removeChar_clean _ _ (fun ch hch => (h ch hch).2.2)

/-- Helper: python repr of an apostrophe-free string single-quotes it. -/
theorem pyReprStr_no_apost (f : String)
    (h : ∀ ch ∈ f.data, ch ≠ Char.ofNat 39) :
    pyReprStr f = String.mk (Char.ofNat 39 :: f.data ++ [Char.ofNat 39]) := by
  unfold pyReprStr
  have hnm : Char.ofNat 39 ∉ f.data := fun hm => (h _ hm) rfl
  simp [hnm]

/-- Helper: stripping the rendering of one clean field recovers the
field. -/
theorem stripPyDecor_repr (f : String)
    (h : ∀ ch ∈ f.data, ch ≠ Char.ofNat 39 ∧ ch ≠ '[' ∧ ch ≠ ']') :
    stripPyDecor (pyReprStr f) = f := by
  rw [pyReprStr_no_apost f (fun ch hch => (h ch hch).1)]
  have e : String.mk (Char.ofNat 39 :: f.data ++ [Char.ofNat 39]) =
      String.mk [Char.ofNat 39] ++ f ++ String.mk [Char.ofNat 39] := rfl
  rw [e, stripPyDecor_append, stripPyDecor_append, stripPyDecor_clean f h]
  have hq : stripPyDecor (String.mk [Char.ofNat 39]) = "" := by decide
  rw [hq, str_append_empty]
  rfl

/-- Helper: stripping the joined rendering of clean fields yields the
fields joined by a comma and a space. -/
theorem stripPyDecor_join (fields : List String)
    (h : ∀ f ∈ fields, ∀ ch ∈ f.data, ch ≠ Char.ofNat 39 ∧ ch ≠ '[' ∧ ch ≠ ']') :
    stripPyDecor (joinSep ", " (fields.map pyReprStr)) = joinSep ", " fields := by
  induction fields with
  | nil => decide
  | cons f rest ih =>
    cases rest with
    | nil =>
      show stripPyDecor (pyReprStr f) = f
      exact stripPyDecor_repr f (h f (by simp))
    | cons f2 rest2 =>
      have e1 : joinSep ", " ((f :: f2 :: rest2).map pyReprStr) =
          pyReprStr f ++ ", " ++ joinSep ", " ((f2 :: rest2).map pyReprStr) := rfl
      have e2 : joinSep ", " (f :: f2 :: rest2) = f ++ ", " ++ joinSep ", " (f2 :: rest2) := rfl
      have hsep : stripPyDecor ", " = ", " := by decide
      rw [e1, e2, stripPyDecor_append, stripPyDecor_append, hsep,
        stripPyDecor_repr f (h f (by simp)),
        ih (fun g hg => h g (by simp [hg]))]

/-- C10 amended: the row written for a sample whose fields contain no
apostrophe and no square bracket is the elapsed time, one bare comma,
then the normalized fields joined by a comma and a space (the python
list rendering), and a line feed; square brackets and quotes of the
rendering are stripped, and any such characters inside field values
would be stripped as well. -/
theorem c10_amended (timeStr : String) (fields : List String)
    (h : ∀ f ∈ fields, ∀ ch ∈ f.data, ch ≠ Char.ofNat 39 ∧ ch ≠ '[' ∧ ch ≠ ']') :
    csvRow timeStr fields = timeStr ++ "," ++ joinSep ", " fields ++ "\n" := by
  unfold csvRow pyStrList
  rw [stripPyDecor_append, stripPyDecor_append, stripPyDecor_join fields h]
  have h1 : stripPyDecor "[" = "" := by decide
  have h2 : stripPyDecor "]" = "" := by decide
  rw [h1, h2, str_append_empty]
  rfl

/-- Witness for C10 amended at a concrete sample row. -/
theorem c10_amended_witness :
    csvRow "0.02" ["", "7", "8"] = "0.02,, 7, 8\n" := by
  have h := c10_amended "0.02" ["", "7", "8"] (by decide)
  rw [h]
  decide

/-! ## Decode-session claims -/

/-- Helper: the empty accumulator satisfies the clock specification. -/
theorem elapsedSpec_nil (rate : ℚ) : elapsedSpec rate [] := by
  intro n pt h
  simp at h

/-- Helper: appending a sample stamped from the current count preserves
the clock specification. -/
theorem elapsedSpec_append (rate : ℚ) (acc : List DataPoint) (pt : DataPoint)
    (h : elapsedSpec rate acc)
    (hpt : pt.time_elapsed = ((acc.length : ℚ) + 1) * rate / 1000) :
    elapsedSpec rate (acc ++ [pt]) := by
  intro n q hq
  rcases lt_trichotomy n acc.length with hlt | heq | hgt
  · rw [List.getElem?_append, if_pos hlt] at hq
    exact h n q hq
  · subst heq
    rw [List.getElem?_concat_length] at hq
    cases hq
    exact hpt
  · have hlen : (acc ++ [pt]).length ≤ n := by
      simp only [List.length_append, List.length_singleton]
      omega
    rw [List.getElem?_eq_none hlen] at hq
    cases hq

/-- Helper: a successful sample construction stores the supplied elapsed
time. -/
theorem mkDataPoint_time (t : ℚ) (fields : List String) (pt : DataPoint)
    (h : mkDataPoint t fields = some pt) : pt.time_elapsed = t := by
  unfold mkDataPoint at h
  split at h
  · cases h
    rfl
  · cases h

/-- Helper: a successful record step appends exactly one sample stamped
from the pre-step count, and its flag is the termination test at the
post-step count. -/
theorem stepRecord_shape (rate duration : ℚ) (acc : List DataPoint) (p : String)
    (acc2 : List DataPoint) (b : Bool)
    (h : stepRecord rate duration acc p = some (acc2, b)) :
    ∃ pt, acc2 = acc ++ [pt] ∧
      pt.time_elapsed = ((acc.length : ℚ) + 1) * rate / 1000 ∧
      (b = true ↔ duration * 1000 ≤ ((acc2.length : ℚ)) * rate) := by
  simp only [stepRecord] at h
  cases hm : mkDataPoint (((acc.length : ℚ) + 1) * rate / 1000)
      (normalizePoint (splitPoint p)) with
  | none =>
    simp only [hm] at h
    cases h
  | some pt =>
    simp only [hm, Option.some.injEq, Prod.mk.injEq] at h
    obtain ⟨h1, h2⟩ := h
    refine ⟨pt, h1.symm, mkDataPoint_time _ _ _ hm, ?_⟩
    subst h1 h2
    by_cases hc : duration * 1000 ≤ ((acc ++ [pt]).length : ℚ) * rate
    · simp [hc]
    · simp [hc]

/-- Helper: the record loop preserves the clock specification. -/
theorem runPoints_elapsed (rate duration : ℚ) :
    ∀ (ps : List String) (acc acc2 : List DataPoint) (b : Bool),
      elapsedSpec rate acc →
      runPoints rate duration acc ps = some (acc2, b) →
      elapsedSpec rate acc2 := by
  intro ps
  induction ps with
  | nil =>
    intro acc acc2 b hacc h
    simp only [runPoints, Option.some.injEq, Prod.mk.injEq] at h
    rw [← h.1]
    exact hacc
  | cons p ps ih =>
    intro acc acc2 b hacc h
    simp only [runPoints] at h
    cases hs : stepRecord rate duration acc p with
    | none =>
      rw [hs] at h
      cases h
    | some pr =>
      obtain ⟨acc3, b3⟩ := pr
      rw [hs] at h
      obtain ⟨pt, hacc3, hpt, _⟩ := stepRecord_shape rate duration acc p acc3 b3 hs
      have hspec3 : elapsedSpec rate acc3 := by
        rw [hacc3]
        exact elapsedSpec_append rate acc pt hacc hpt
      cases b3 with
      | true =>
        simp only [Option.some.injEq, Prod.mk.injEq] at h
        rw [← h.1]
        exact hspec3
      | false =>
        exact ih acc3 acc2 b hspec3 h

/-- Helper: one poll-response step preserves the clock specification. -/
theorem stepResponse_elapsed (rate duration : ℚ) (acc : List DataPoint) (r : String)
    (acc2 : List DataPoint) (b : Bool)
    (hacc : elapsedSpec rate acc)
    (h : stepResponse rate duration acc r = some (acc2, b)) :
    elapsedSpec rate acc2 := by
  unfold stepResponse at h
  split at h
  · exact runPoints_elapsed rate duration (splitPoints r) acc acc2 b hacc h
  · simp only [Option.some.injEq, Prod.mk.injEq] at h
    rw [← h.1]
    exact hacc

/-- Helper: the poll loop preserves the clock specification. -/
theorem runStream_elapsed (rate duration : ℚ) (stream : Nat → String) :
    ∀ (fuel k : Nat) (acc acc2 : List DataPoint) (b : Bool),
      elapsedSpec rate acc →
      runStream rate duration stream acc k fuel = some (acc2, b) →
      elapsedSpec rate acc2 := by
  intro fuel
  induction fuel with
  | zero =>
    intro k acc acc2 b hacc h
    simp only [runStream, Option.some.injEq, Prod.mk.injEq] at h
    rw [← h.1]
    exact hacc
  | succ n ih =>
    intro k acc acc2 b hacc h
    simp only [runStream] at h
    cases hs : stepResponse rate duration acc (stream k) with
    | none =>
      rw [hs] at h
      cases h
    | some pr =>
      obtain ⟨acc3, b3⟩ := pr
      rw [hs] at h
      have hspec3 := stepResponse_elapsed rate duration acc (stream k) acc3 b3 hacc hs
      cases b3 with
      | true =>
        simp only [Option.some.injEq, Prod.mk.injEq] at h
        rw [← h.1]
        exact hspec3
      | false =>
        exact ih (k + 1) acc3 acc2 b hspec3 h

/-- C6: for every decode session, the sample at 0-based position `n` of
the accumulated result (counting across all batches) has elapsed time
exactly `(n + 1) * rate / 1000` seconds, so consecutive elapsed times
differ by the fixed step `rate / 1000` and are strictly increasing
whenever the interval is positive, independent of any polling latency
(the clock is driven purely by the sample ordinal). -/
theorem c6_elapsed_ordinal (rate duration : ℚ) (stream : Nat → String)
    (fuel : Nat) (samples : List DataPoint) (b : Bool) (n : Nat) (pt : DataPoint)
    (hrun : get_buffered_data rate duration stream fuel = some (samples, b))
    (hn : samples[n]? = some pt) :
    pt.time_elapsed = ((n : ℚ) + 1) * rate / 1000 ∧
    (∀ pt2, samples[n + 1]? = some pt2 →
      pt2.time_elapsed = pt.time_elapsed + rate / 1000 ∧
      (0 < rate → pt.time_elapsed < pt2.time_elapsed)) := by
  have hspec : elapsedSpec rate samples :=
    runStream_elapsed rate (round2 duration) stream fuel 1 [] samples b
      (elapsedSpec_nil rate) hrun
  have e1 := hspec n pt hn
  refine ⟨e1, ?_⟩
  intro pt2 h2
  have e2 := hspec (n + 1) pt2 h2
  have estep : pt2.time_elapsed = pt.time_elapsed + rate / 1000 := by
    rw [e1, e2]
    push_cast
    ring
  refine ⟨estep, ?_⟩
  intro hr
  rw [estep]
  have hpos : 0 < rate / 1000 := by positivity
  linarith

/-- Witness for C6 at the worked example session. -/
theorem c6_elapsed_ordinal_witness :
    get_buffered_data 10 (0.03 : ℚ) exampleStream 10 = some (examplePoints, true) ∧
    examplePoints[0]? = some (examplePoint (1 / 100)) ∧
    (examplePoint (1 / 100)).time_elapsed = ((0 : ℚ) + 1) * 10 / 1000 := by
  refine ⟨by decide, by decide, ?_⟩
  have h := c6_elapsed_ordinal 10 (0.03 : ℚ) exampleStream 10 examplePoints true 0
    (examplePoint (1 / 100)) (by decide) (by decide)
  exact h.1

/-- Helper: assuming the loop entered a record batch strictly below the
duration threshold, a true flag certifies the earliest crossing and a
false flag certifies the threshold is still not reached. -/
theorem runPoints_threshold (rate duration : ℚ) :
    ∀ (ps : List String) (acc acc2 : List DataPoint) (b : Bool),
      ¬ (duration * 1000 ≤ (acc.length : ℚ) * rate) →
      runPoints rate duration acc ps = some (acc2, b) →
      ((b = true → duration * 1000 ≤ (acc2.length : ℚ) * rate ∧
          ¬ (duration * 1000 ≤ ((acc2.length : ℚ) - 1) * rate) ∧ 1 ≤ acc2.length) ∧
        (b = false → ¬ (duration * 1000 ≤ (acc2.length : ℚ) * rate))) := by
  intro ps
  induction ps with
  | nil =>
    intro acc acc2 b hpre h
    simp only [runPoints, Option.some.injEq, Prod.mk.injEq] at h
    obtain ⟨h1, h2⟩ := h
    subst h1
    subst h2
    refine ⟨?_, fun _ => hpre⟩
    intro hb
    cases hb
  | cons p ps ih =>
    intro acc acc2 b hpre h
    simp only [runPoints] at h
    cases hs : stepRecord rate duration acc p with
    | none =>
      rw [hs] at h
      cases h
    | some pr =>
      obtain ⟨acc3, b3⟩ := pr
      rw [hs] at h
      obtain ⟨pt, hacc3, hpt, hiff⟩ := stepRecord_shape rate duration acc p acc3 b3 hs
      have hlen3 : acc3.length = acc.length + 1 := by
        rw [hacc3]
        simp
      cases b3 with
      | true =>
        simp only [Option.some.injEq, Prod.mk.injEq] at h
        obtain ⟨h1, h2⟩ := h
        subst h1
        subst h2
        constructor
        · intro _
          refine ⟨hiff.mp rfl, ?_, by omega⟩
          have hcast : ((acc3.length : ℚ) - 1) = (acc.length : ℚ) := by
            rw [hlen3]
            push_cast
            ring
          rw [hcast]
          exact hpre
        · intro hb
          cases hb
      | false =>
        have hpre3 : ¬ (duration * 1000 ≤ (acc3.length : ℚ) * rate) := by
          intro hc
          cases hiff.mpr hc
        exact ih acc3 acc2 b hpre3 h

/-- Helper: threshold certification for one poll response. -/
theorem stepResponse_threshold (rate duration : ℚ) (acc : List DataPoint) (r : String)
    (acc2 : List DataPoint) (b : Bool)
    (hpre : ¬ (duration * 1000 ≤ (acc.length : ℚ) * rate))
    (h : stepResponse rate duration acc r = some (acc2, b)) :
    ((b = true → duration * 1000 ≤ (acc2.length : ℚ) * rate ∧
        ¬ (duration * 1000 ≤ ((acc2.length : ℚ) - 1) * rate) ∧ 1 ≤ acc2.length) ∧
      (b = false → ¬ (duration * 1000 ≤ (acc2.length : ℚ) * rate))) := by
  unfold stepResponse at h
  split at h
  · exact runPoints_threshold rate duration (splitPoints r) acc acc2 b hpre h
  · simp only [Option.some.injEq, Prod.mk.injEq] at h
    obtain ⟨h1, h2⟩ := h
    subst h1
    subst h2
    refine ⟨?_, fun _ => hpre⟩
    intro hb
    cases hb

/-- Helper: a poll loop that starts below the threshold and returns
normally stops at the earliest crossing. -/
theorem runStream_threshold (rate duration : ℚ) (stream : Nat → String) :
    ∀ (fuel k : Nat) (acc acc2 : List DataPoint) (b : Bool),
      ¬ (duration * 1000 ≤ (acc.length : ℚ) * rate) →
      runStream rate duration stream acc k fuel = some (acc2, b) →
      ((b = true → duration * 1000 ≤ (acc2.length : ℚ) * rate ∧
          ¬ (duration * 1000 ≤ ((acc2.length : ℚ) - 1) * rate) ∧ 1 ≤ acc2.length) ∧
        (b = false → ¬ (duration * 1000 ≤ (acc2.length : ℚ) * rate))) := by
  intro fuel
  induction fuel with
  | zero =>
    intro k acc acc2 b hpre h
    simp only [runStream, Option.some.injEq, Prod.mk.injEq] at h
    obtain ⟨h1, h2⟩ := h
    subst h1
    subst h2
    refine ⟨?_, fun _ => hpre⟩
    intro hb
    cases hb
  | succ n ih =>
    intro k acc acc2 b hpre h
    simp only [runStream] at h
    cases hs : stepResponse rate duration acc (stream k) with
    | none =>
      rw [hs] at h
      cases h
    | some pr =>
      obtain ⟨acc3, b3⟩ := pr
      rw [hs] at h
      have hstep := stepResponse_threshold rate duration acc (stream k) acc3 b3 hpre hs
      cases b3 with
      | true =>
        simp only [Option.some.injEq, Prod.mk.injEq] at h
        obtain ⟨h1, h2⟩ := h
        subst h1
        subst h2
        refine ⟨fun _ => hstep.1 rfl, ?_⟩
        intro hb
        cases hb
      | false =>
        exact ih (k + 1) acc3 acc2 b (hstep.2 rfl) h

/-- Helper: when every polled response strictly grows the accumulator,
the poll loop always returns, and a false flag certifies at least one
new sample per fuel unit. -/
theorem runStream_progress (rate duration : ℚ) (stream : Nat → String)
    (hprog : ∀ (k : Nat) (acc : List DataPoint), 1 ≤ k →
      ∃ acc2 b, stepResponse rate duration acc (stream k) = some (acc2, b) ∧
        acc.length < acc2.length) :
    ∀ (fuel k : Nat) (acc : List DataPoint), 1 ≤ k →
      ∃ acc2 b, runStream rate duration stream acc k fuel = some (acc2, b) ∧
        (b = false → acc.length + fuel ≤ acc2.length) := by
  intro fuel
  induction fuel with
  | zero =>
    intro k acc _
    exact ⟨acc, false, rfl, fun _ => by omega⟩
  | succ n ih =>
    intro k acc hk
    obtain ⟨acc3, b3, hs, hgrow⟩ := hprog k acc hk
    cases b3 with
    | true =>
      refine ⟨acc3, true, ?_, fun hb => by cases hb⟩
      simp only [runStream, hs]
    | false =>
      obtain ⟨acc2, b, hrun, hlen⟩ := ih (k + 1) acc3 (by omega)
      refine ⟨acc2, b, ?_, ?_⟩
      · simp only [runStream, hs]
        exact hrun
      · intro hb
        have := hlen hb
        omega

/-- C7: for a session with positive rounded duration, a normal return
stops at the earliest crossing of the threshold: the final count `n`
satisfies `n * rate ≥ duration * 1000` while
`(n - 1) * rate < duration * 1000`; when the instrument keeps supplying
records (every poll strictly grows the accumulator) and the interval is
positive, the session does terminate normally once the poll budget
covers the threshold; and in particular interval 10 ms with duration
0.03 s yields exactly 3 samples. -/
theorem c7_termination_earliest_crossing (rate duration : ℚ) (stream : Nat → String)
    (fuel : Nat) :
    (∀ samples, 0 < round2 duration →
      get_buffered_data rate duration stream fuel = some (samples, true) →
      round2 duration * 1000 ≤ (samples.length : ℚ) * rate ∧
        ((samples.length : ℚ) - 1) * rate < round2 duration * 1000 ∧
        1 ≤ samples.length) ∧
    ((∀ (k : Nat) (acc : List DataPoint), 1 ≤ k →
        ∃ acc2 b, stepResponse rate (round2 duration) acc (stream k) = some (acc2, b) ∧
          acc.length < acc2.length) →
      0 < rate → 0 < round2 duration →
      round2 duration * 1000 ≤ (fuel : ℚ) * rate →
      ∃ samples, get_buffered_data rate duration stream fuel = some (samples, true)) ∧
    (get_buffered_data 10 (0.03 : ℚ) exampleStream 10).map
        (fun r => (r.1.length, r.2)) = some (3, true) := by
  refine ⟨?_, ?_, by decide⟩
  · intro samples hdur hrun
    have hpre : ¬ (round2 duration * 1000 ≤ ((([] : List DataPoint).length : ℚ)) * rate) := by
      simp only [List.length_nil, Nat.cast_zero, zero_mul]
      have h1000 : 0 < round2 duration * 1000 := mul_pos hdur (by norm_num)
      intro hc
      linarith
    have hmain := (runStream_threshold rate (round2 duration) stream fuel 1 [] samples true
      hpre hrun).1 rfl
    exact ⟨hmain.1, not_le.mp hmain.2.1, hmain.2.2⟩
  · intro hprog hrate hdur hfuel
    obtain ⟨acc2, b, hrun, hlen⟩ := runStream_progress rate (round2 duration) stream hprog
      fuel 1 [] (by omega)
    cases b with
    | true => exact ⟨acc2, hrun⟩
    | false =>
      exfalso
      have hle : fuel ≤ acc2.length := by
        have := hlen rfl
        omega
      have hpre : ¬ (round2 duration * 1000 ≤ ((([] : List DataPoint).length : ℚ)) * rate) := by
        simp only [List.length_nil, Nat.cast_zero, zero_mul]
        have h1000 : 0 < round2 duration * 1000 := mul_pos hdur (by norm_num)
        intro hc
        linarith
      have hth := (runStream_threshold rate (round2 duration) stream fuel 1 [] acc2 false
        hpre hrun).2 rfl
      apply hth
      calc round2 duration * 1000 ≤ (fuel : ℚ) * rate := hfuel
        _ ≤ (acc2.length : ℚ) * rate := by
            apply mul_le_mul_of_nonneg_right _ (le_of_lt hrate)
            exact_mod_cast hle

/-- Witness for C7 at the worked example session. -/
theorem c7_termination_earliest_crossing_witness :
    (0 : ℚ) < round2 (0.03 : ℚ) ∧
    get_buffered_data 10 (0.03 : ℚ) exampleStream 10 = some (examplePoints, true) ∧
    round2 (0.03 : ℚ) * 1000 ≤ ((examplePoints.length : ℚ)) * 10 ∧
    ((examplePoints.length : ℚ) - 1) * 10 < round2 (0.03 : ℚ) * 1000 ∧
    1 ≤ examplePoints.length := by
  have h := (c7_termination_earliest_crossing 10 (0.03 : ℚ) exampleStream 10).1
    examplePoints (by decide) (by decide)
  exact ⟨by decide, by decide, h.1, h.2.1, h.2.2⟩

/-- Helper: the poll loop never looks at stream indices below its start
index, so two streams agreeing from the start index on produce the same
run. -/
theorem runStream_congr (rate duration : ℚ) (s s2 : Nat → String) :
    ∀ (fuel k : Nat) (acc : List DataPoint),
      (∀ j, k ≤ j → s j = s2 j) →
      runStream rate duration s acc k fuel = runStream rate duration s2 acc k fuel := by
  intro fuel
  induction fuel with
  | zero =>
    intro k acc _
    rfl
  | succ n ih =>
    intro k acc hagree
    simp only [runStream]
    rw [hagree k (Nat.le_refl k)]
    cases hsr : stepResponse rate duration acc (s2 k) with
    | none => rfl
    | some pr =>
      obtain ⟨acc3, b3⟩ := pr
      cases b3 with
      | true => rfl
      | false => exact ih (k + 1) acc3 (fun j hj => hagree j (Nat.le_of_succ_le hj))

/-- C8: the pre-loop buffer-clearing fetch contributes no samples: the
decode result depends only on the responses the poll loop reads
(indices at and above 1), whatever the flush response at index 0
contained; and a poll response lacking the record separator leaves the
accumulator unchanged with no error and no termination. -/
theorem c8_flush_contributes_nothing (rate duration : ℚ) (fuel : Nat) :
    (∀ s s2 : Nat → String, (∀ k, 1 ≤ k → s k = s2 k) →
      get_buffered_data rate duration s fuel = get_buffered_data rate duration s2 fuel) ∧
    (∀ (acc : List DataPoint) (r : String), strContains r ";" = false →
      stepResponse rate duration acc r = some (acc, false)) := by
  constructor
  · intro s s2 hagree
    unfold get_buffered_data
    exact runStream_congr rate (round2 duration) s s2 fuel 1 [] hagree
  · intro acc r hr
    simp [stepResponse, hr]

/-- Witness for C8: changing only the flush response leaves the worked
example run unchanged, and a separator-free poll response is silently
skipped. -/
theorem c8_flush_contributes_nothing_witness :
    get_buffered_data 10 (0.03 : ℚ) exampleStream 2 =
      get_buffered_data 10 (0.03 : ℚ)
        (fun k => if k = 0 then "stale;junk;" else exampleStream k) 2 ∧
    stepResponse 10 (0.03 : ℚ) [] "no data yet" = some ([], false) := by
  have h := c8_flush_contributes_nothing 10 (0.03 : ℚ) 2
  refine ⟨h.1 exampleStream _ ?_, h.2 [] "no data yet" (by decide)⟩
  intro k hk
  have hne : k ≠ 0 := by omega
  simp [hne]
